import Mathlib

/-!
Verification of the poststack core: the SQL renderer and fluent builders
(`packages/sql-generator/src/sql.ts`, `packages/db-transport/src/dbTransport.ts`)
and the type-resolution engine (`packages/db-inspector/src/inspector.ts`).

Every definition is a shallow embedding of the corresponding TypeScript
function; JavaScript-specific behaviour (truthiness of `0`, `""`, `null`,
`undefined`; stringification of booleans and `undefined` inside template
literals) is modelled explicitly where the source relies on it.
-/

namespace Poststack

/-! ## Substring search helper (used to state facts about rendered SQL text) -/

/-- Does the second list start with the first one? -/
def leadsWith : List Char → List Char → Bool
  | [], _ => true
  | _ :: _, [] => false
  | a :: as, b :: bs => a == b && leadsWith as bs

/-- Does the needle occur contiguously inside the haystack? -/
def hasChunk (needle : List Char) : List Char → Bool
  | [] => leadsWith needle []
  | b :: bs => leadsWith needle (b :: bs) || hasChunk needle bs

/-- Substring test on strings. -/
def strHas (haystack needle : String) : Bool :=
  hasChunk needle.data haystack.data

/-! ## Query/Command model (`packages/metadata/src/metadata.ts`)

Condition values are JavaScript `any`; the claims only exercise string
values, so values are embedded as `String`. -/

/-- A `Condition` from metadata.ts: the `arity` discriminant (1 or 2) becomes
the constructor; `operator` is kept as the raw string the code compares. -/
inductive Condition where
  | unary (column : String) (operator : String)
  | binary (column : String) (operator : String) (value : String)
deriving DecidableEq, Repr

/-- The `orderBy` component of a `SelectQuery`. -/
structure OrderClause where
  columns : List String
  direction : String
deriving DecidableEq, Repr

/-- `SelectQuery` from metadata.ts; optional fields become `Option`. -/
structure SelectQuery where
  table : String
  limit : Option Int := none
  offset : Option Int := none
  conditions : Option (List Condition) := none
  selected : Option (List String) := none
  orderBy : Option OrderClause := none
deriving DecidableEq, Repr

/-- `UpdateCommand` and `DeleteCommand` in metadata.ts are structurally
identical records `{table, conditions?, returning?}`; TypeScript typing is
structural, so one Lean structure embeds both (this structural identity is
what lets `DeleteBuilder.execute` pass its command to `transport.update`). -/
structure WhereCommand where
  table : String
  conditions : Option (List Condition) := none
  returning : Option (List String) := none
deriving DecidableEq, Repr

abbrev UpdateCommand := WhereCommand
abbrev DeleteCommand := WhereCommand

/-- `InsertCommand` from metadata.ts. -/
structure InsertCommand where
  table : String
  returning : Option (List String) := none
deriving DecidableEq, Repr

/-- `CallCommand` from metadata.ts (parameters embedded as strings). -/
structure CallCommand where
  procedure : String
  parameters : List String := []
deriving DecidableEq, Repr

/-- The `ApiTransport` interface, parametric in the result type: five
operations the fluent builders can invoke. -/
structure ApiTransport (ρ : Type) where
  select : SelectQuery → ρ
  insert : InsertCommand → ρ
  update : UpdateCommand → ρ
  delete : DeleteCommand → ρ
  call : CallCommand → ρ

/-! ## SQL renderer (`packages/sql-generator/src/sql.ts`) -/

/-- The `pg-promise` `IFormatting` interface as used by `SqlGenerator`:
`format.name` quotes identifiers, `format.value` formats/escapes values,
`format.number` formats numbers. -/
structure IFormatting where
  name : String → String
  value : String → String
  number : Int → String

/-- JavaScript `Array.prototype.join(sep)` on a list of strings. -/
def joinSep (sep : String) : List String → String
  | [] => ""
  | [x] => x
  | x :: y :: xs => x ++ sep ++ joinSep sep (y :: xs)

/-- `SqlGenerator.generateCondition` (sql.ts:40-49): unary conditions render
as `name(column) ++ " " ++ operator`; binary ones additionally append
`value(value)` with no space after the operator. -/
def generateCondition (fmt : IFormatting) : Condition → String
  | .unary column operator => fmt.name column ++ " " ++ operator
  | .binary column operator value =>
      fmt.name column ++ " " ++ operator ++ fmt.value value

/-- The string produced by `${where}` in sql.ts:26, where
`where = select.conditions && select.conditions.length > 0`: JavaScript
stringifies the flag itself — `undefined` when `conditions` is absent,
`false` when it is empty, `true` when non-empty. -/
def whereFlagText (conditions : Option (List Condition)) : String :=
  match conditions with
  | none => "undefined"
  | some cs => if cs.length > 0 then "true" else "false"

/-- The `columns` local of `SqlGenerator.select` (sql.ts:15):
`select.selected?.map(this.format.name) || "*"` — an empty array is truthy
in JavaScript, so an empty selection renders as `""`, and an array
stringifies with `,` separators inside the template literal. -/
def selectedText (fmt : IFormatting) : Option (List String) → String
  | some cols => joinSep "," (cols.map fmt.name)
  | none => "*"

/-- The `conditions` local of `SqlGenerator.select` (sql.ts:17):
`select.conditions?.map(c => this.generateCondition(c)).join(" and ") || ""`. -/
def conditionsText (fmt : IFormatting) : Option (List Condition) → String
  | some cs => joinSep " and " (cs.map (generateCondition fmt))
  | none => ""

/-- The `limit` local of `SqlGenerator.select` (sql.ts:18):
`select.limit ? ... : ""` — `0` is falsy, so a zero limit renders nothing. -/
def limitText (fmt : IFormatting) : Option Int → String
  | some n => if n = 0 then "" else "limit " ++ fmt.number n
  | none => ""

/-- The `offset` local of `SqlGenerator.select` (sql.ts:19). -/
def offsetText (fmt : IFormatting) : Option Int → String
  | some n => if n = 0 then "" else "offset " ++ fmt.number n
  | none => ""

/-- The `orderBy` local of `SqlGenerator.select` (sql.ts:20-22): the columns
join with `", "` and the direction is appended with no separating space. -/
def orderByText (fmt : IFormatting) : Option OrderClause → String
  | some ob => "order by " ++ joinSep ", " (ob.columns.map fmt.name) ++ ob.direction
  | none => ""

/-- `SqlGenerator.select` (sql.ts:14-31), reproducing the template literal
byte for byte, including its indentation. Note `from ${select.table}`
interpolates the table name raw, and `${where} ${conditions}` stringifies
the boolean flag (see `whereFlagText`). -/
def selectText (fmt : IFormatting) (q : SelectQuery) : String :=
  "\n      select " ++ selectedText fmt q.selected
    ++ "\n      from " ++ q.table
    ++ "\n      " ++ whereFlagText q.conditions ++ " " ++ conditionsText fmt q.conditions
    ++ "\n      " ++ limitText fmt q.limit
    ++ "\n      " ++ offsetText fmt q.offset
    ++ "\n      " ++ orderByText fmt q.orderBy
    ++ "\n    "

/-! ## Fluent builders (`packages/db-transport/src/dbTransport.ts`) -/

/-- The fixed unary operator list (dbTransport.ts:301-304). -/
def unaryOperators : List String := ["is null", "is not null"]

/-- `isUnaryOperator` (dbTransport.ts:306-308). -/
def isUnaryOperator (o : String) : Bool := unaryOperators.contains o

/-- The fixed binary operator list (dbTransport.ts:310-316). -/
def binaryOperators : List String := ["=", ">", "<", ">=", "<="]

/-- `isBinaryOperator` (dbTransport.ts:318-320). -/
def isBinaryOperator (o : String) : Bool := binaryOperators.contains o

/-- The condition built by the shared `where` helper (dbTransport.ts:288-299):
a defined value with a binary operator gives a binary condition; otherwise a
unary operator gives a unary condition; otherwise the two-argument sugar
treats the `operator` argument as the value of an equality condition. -/
def makeCondition (column operator : String) (value : Option String) : Condition :=
  match value with
  | some v =>
      if isBinaryOperator operator then .binary column operator v
      else if isUnaryOperator operator then .unary column operator
      else .binary column "=" operator
  | none =>
      if isUnaryOperator operator then .unary column operator
      else .binary column "=" operator

/-- The shared `where` helper's effect on the conditions list: initializes
the list when undefined, then pushes the new condition. -/
def addWhere (column : String) (conditions : Option (List Condition))
    (operator : String) (value : Option String) : Option (List Condition) :=
  some (conditions.getD [] ++ [makeCondition column operator value])

/-- `SelectBuilder`'s constructor (dbTransport.ts:154-161): seeds
`{table}`, and sets `selected` only when an array (not `"*"`) was given. -/
def selectBuilderInit (table : String) (columns : Option (List String)) : SelectQuery :=
  { table := table, selected := columns }

/-- `SelectBuilder.where` (dbTransport.ts:177-183) acting on the query. -/
def SelectQuery.whereClause (q : SelectQuery) (column operator : String)
    (value : Option String) : SelectQuery :=
  { q with conditions := addWhere column q.conditions operator value }

/-- `SelectBuilder.limit` (dbTransport.ts:167-170). -/
def SelectQuery.setLimit (q : SelectQuery) (n : Int) : SelectQuery :=
  { q with limit := some n }

/-- `SelectBuilder.offset` (dbTransport.ts:172-175). -/
def SelectQuery.setOffset (q : SelectQuery) (n : Int) : SelectQuery :=
  { q with offset := some n }

/-- Stringification of the optional direction inside the error template
literal: JavaScript renders `undefined`. -/
def directionText : Option String → String
  | some d => d
  | none => "undefined"

/-- `SelectBuilder.orderBy` (dbTransport.ts:185-194): any direction other
than the literal strings `"asc"`/`"desc"` — including the omitted
(`undefined`) argument — throws at call time; otherwise the single ordering
clause is replaced, with the `direction || "asc"` fallback of the source
kept (an empty string is falsy in JavaScript). -/
def SelectQuery.setOrderBy (q : SelectQuery) (columns : List String)
    (direction : Option String) : Except String SelectQuery :=
  if direction ≠ some "asc" ∧ direction ≠ some "desc" then
    .error ("Invalid orderBy direction: \"" ++ directionText direction ++ "\".")
  else
    .ok { q with
          orderBy := some { columns := columns,
                            direction := match direction with
                              | some d => if d = "" then "asc" else d
                              | none => "asc" } }

/-- `DeleteBuilder`'s constructor (dbTransport.ts:256-260): seeds the
command with the table name. -/
def deleteBuilderInit (tableName : String) : DeleteCommand :=
  { table := tableName }

/-- `DeleteBuilder.execute` (dbTransport.ts:262-264): the source reads
`return this.transport.update(this.command)` — it hands the accumulated
delete command to the transport's `update` operation. -/
def deleteExecute {ρ : Type} (t : ApiTransport ρ) (command : DeleteCommand) : ρ :=
  t.update command

/-- `UpdateBuilder.execute` (dbTransport.ts:231-233), for contrast: it also
invokes `transport.update`. -/
def updateExecute {ρ : Type} (t : ApiTransport ρ) (command : UpdateCommand) : ρ :=
  t.update command

/-! ## Schema data model (`packages/metadata/src/metadata.ts`) with the
runtime shape of `TsType` as produced by the inspector

The declared `TsType` union in metadata.ts carries whole `EnumData`/
`TypeData` objects in its `enum`/`interface` payloads, but the inspector's
assignments (`["interface", type.tsName]`, `["enum", enu.tsName]`, both
through `as unknown as TsType` casts) store the display-name string, and the
transient marker `["UNRESOLVED_UDT", name]` is likewise smuggled through a
cast. The embedding follows the runtime values. -/

/-- Runtime `TsType` values: the four primitive string tags, the two-slot
tagged arrays, and the transient `UNRESOLVED_UDT` marker whose payload is
the (possibly null) underlying-type name. -/
inductive TsType where
  | boolean
  | number
  | string
  | date
  | enum (tsName : String)
  | interface (tsName : String)
  | array (inner : TsType)
  | unresolvedUdt (name : Option String)
deriving DecidableEq, Repr

/-- `FieldData`: one enum label with its sort order. -/
structure FieldData where
  name : String
  order : Int
deriving DecidableEq, Repr

/-- `EnumData`. -/
structure EnumData where
  name : String
  tsName : String
  fields : List FieldData
deriving DecidableEq, Repr

/-- `AttributeData`. -/
structure AttributeData where
  name : String
  order : Int
  nullable : Bool
  tsType : TsType
deriving DecidableEq, Repr

/-- `TypeData` (a composite type). -/
structure TypeData where
  name : String
  tsName : String
  attributes : List AttributeData
deriving DecidableEq, Repr

/-- `TableData`. -/
structure TableData where
  name : String
  tsName : String
  columns : List AttributeData
deriving DecidableEq, Repr

/-- `FuncData` (a routine). -/
structure FuncData where
  name : String
  returnType : TsType
  parameters : List AttributeData
deriving DecidableEq, Repr

/-- `SchemaData`. -/
structure SchemaData where
  enums : List EnumData
  types : List TypeData
  tables : List TableData
  functions : List FuncData
deriving DecidableEq, Repr

/-! ## Phase 1 — per-attribute deduction (`inspector.ts:237-265`) -/

/-- `UdtOptions` (inspector.ts:50-53): the caller-supplied treat-as-string
and treat-as-number allow-lists. -/
structure UdtOptions where
  string : List String
  number : List String
deriving DecidableEq, Repr

/-- The built-in numeric type names (inspector.ts:273-280). -/
def numberTypeNames : List String :=
  ["int2", "int4", "int8", "bigint", "money", "numeric"]

/-- The built-in text/identifier type names (inspector.ts:282-287). -/
def stringTypeNames : List String :=
  ["text", "text_not_blank", "uuid", "citext"]

/-- The built-in timestamp-family type names (inspector.ts:289-294). -/
def dateTypeNames : List String :=
  ["timestamp", "timestamptz", "timestamp without time zone", "timestamp with time zone"]

/-- `isNumberType` (inspector.ts:273): `s && [...].includes(s)` — a null or
empty (falsy) string short-circuits to false. -/
def isNumberType : Option String → Bool
  | none => false
  | some s => s ≠ "" && numberTypeNames.contains s

/-- `isStringType` (inspector.ts:282), same truthiness guard. -/
def isStringType : Option String → Bool
  | none => false
  | some s => s ≠ "" && stringTypeNames.contains s

/-- `isKnownDateType` (inspector.ts:289), same truthiness guard. -/
def isKnownDateType : Option String → Bool
  | none => false
  | some s => s ≠ "" && dateTypeNames.contains s

/-- The guarded allow-list test `udt && list.includes(udt)` used in
`deduceType`: skipped entirely for a null or empty `udt`. -/
def listHasOpt (l : List String) : Option String → Bool
  | none => false
  | some u => u ≠ "" && l.contains u

/-- `deduceType(type, null, udts)` — the shape `deduceType` takes on its own
recursive call (inspector.ts:260), which always passes `null` for `udt`:
every `udt`-side test is false and the `ARRAY` branch (which requires
`udt !== null`) cannot fire, leaving a non-recursive function.
`deduceType_none` below proves this equal to the full function at
`udt = null`. -/
def deduceSimple (type : String) (udts : UdtOptions) : Option TsType :=
  if type = "boolean" then some .boolean
  else if isNumberType (some type) || udts.number.contains type then some .number
  else if isStringType (some type) || udts.string.contains type then some .string
  else if isKnownDateType (some type) then some .date
  else if type = "USER-DEFINED" then some (.unresolvedUdt none)
  else none

/-- `deduceType` (inspector.ts:237-265): strict branch order — boolean,
number (built-ins or allow-list), string (built-ins or allow-list), date,
`USER-DEFINED` marker, `ARRAY` (recursive element deduction with
`UnresolvedUdt` fallback), else failure (`null`). Note:
  - `udts.number.includes(type)` / `udts.string.includes(type)` are
    unguarded, while the `udt`-side tests carry the `udt && ...` guard
    (`listHasOpt`).
  - the `ARRAY` branch requires `udt !== null` and recurses with
    `deduceType(udt, null, udts)`, embedded as `deduceSimple`. -/
def deduceType (type : String) (udt : Option String) (udts : UdtOptions) : Option TsType :=
  if type = "boolean" || udt = some "boolean" then some .boolean
  else if isNumberType (some type) || isNumberType udt
      || udts.number.contains type || listHasOpt udts.number udt then some .number
  else if isStringType (some type) || isStringType udt
      || udts.string.contains type || listHasOpt udts.string udt then some .string
  else if isKnownDateType (some type) || isKnownDateType udt then some .date
  else if type = "USER-DEFINED" then some (.unresolvedUdt udt)
  else if type = "ARRAY" then
    match udt with
    | some u => some (.array ((deduceSimple u udts).getD (.unresolvedUdt (some u))))
    | none => none
  else none

/-! ## Phase 2 — global resolution (`inspector.ts:149-190`) -/

/-- Stringification of the marker payload inside the error template literal
(`${column.tsType[1]}` renders `null` for a null payload). -/
def udtNameText : Option String → String
  | some s => s
  | none => "null"

/-- The name lookup `collection.find(x => x.name === tsType[1])`: a null
payload matches no name. -/
def findTypeByName (types : List TypeData) : Option String → Option TypeData
  | some n => types.find? (fun t => t.name = n)
  | none => none

/-- Enum-side name lookup, as `findTypeByName`. -/
def findEnumByName (enums : List EnumData) : Option String → Option EnumData
  | some n => enums.find? (fun e => e.name = n)
  | none => none

/-- The `UNRESOLVED_UDT` branch of `resolveType` (inspector.ts:178-188):
composite types are consulted first, then enums; a miss on both throws
`Can't resolve type "<name>".` (a plain `Error`). -/
def resolveUdt (types : List TypeData) (enums : List EnumData)
    (n : Option String) : Except String TsType :=
  match findTypeByName types n with
  | some ty => .ok (.interface ty.tsName)
  | none =>
    match findEnumByName enums n with
    | some e => .ok (.enum e.tsName)
    | none => .error ("Can't resolve type \"" ++ udtNameText n ++ "\".")

/-- `resolveType` (inspector.ts:168-189) on one `tsType` value, returning
the updated value and the resolution count:
  - `tsType[0] === "array" && tsType[1][0] === UNRESOLVED_UDT`: the inner
    marker is resolved through the recursive `resolveType(fakeColumn)` call
    — which lands in the `UNRESOLVED_UDT` branch, factored here as
    `resolveUdt` — and rewrapped, counting 1 (an exception propagates);
  - a top-level marker is replaced via the same lookups, counting 1;
  - anything else (including an array whose inner value is not a marker —
    the second guard `tsType[0] !== UNRESOLVED_UDT` sees the tag `"array"`)
    is returned unchanged, counting 0. -/
def resolveTsType (types : List TypeData) (enums : List EnumData) :
    TsType → Except String (TsType × Nat)
  | .array (.unresolvedUdt n) => do
      let inner ← resolveUdt types enums n
      pure (.array inner, 1)
  | .unresolvedUdt n => do
      let t ← resolveUdt types enums n
      pure (t, 1)
  | t => pure (t, 0)

/-- `resolveType` applied to one attribute: only the `tsType` field is
reassigned. -/
def resolveAttribute (types : List TypeData) (enums : List EnumData)
    (a : AttributeData) : Except String (AttributeData × Nat) := do
  let (t, n) ← resolveTsType types enums a.tsType
  pure ({ a with tsType := t }, n)

/-- The inner loops of `resolveTypes`: resolve each attribute of a list in
order, accumulating the count (`resolved += resolveType(attr)`). -/
def resolveAttrList (types : List TypeData) (enums : List EnumData) :
    List AttributeData → Except String (List AttributeData × Nat)
  | [] => pure ([], 0)
  | a :: rest => do
      let (a', n) ← resolveAttribute types enums a
      let (rest', m) ← resolveAttrList types enums rest
      pure (a' :: rest', n + m)

/-- The outer loop of `resolveTypes` over the composite types (inspector.ts:
151-155), resolving each type's attribute list in order. -/
def resolveTypeList (types : List TypeData) (enums : List EnumData) :
    List TypeData → Except String (List TypeData × Nat)
  | [] => pure ([], 0)
  | t :: rest => do
      let (attrs, n) ← resolveAttrList types enums t.attributes
      let (rest', m) ← resolveTypeList types enums rest
      pure ({ t with attributes := attrs } :: rest', n + m)

/-- The loop of `resolveTypes` over the tables (inspector.ts:156-160). -/
def resolveTableList (types : List TypeData) (enums : List EnumData) :
    List TableData → Except String (List TableData × Nat)
  | [] => pure ([], 0)
  | t :: rest => do
      let (cols, n) ← resolveAttrList types enums t.columns
      let (rest', m) ← resolveTableList types enums rest
      pure ({ t with columns := cols } :: rest', n + m)

/-- The loop of `resolveTypes` over the routines' parameters
(inspector.ts:161-165). -/
def resolveFuncList (types : List TypeData) (enums : List EnumData) :
    List FuncData → Except String (List FuncData × Nat)
  | [] => pure ([], 0)
  | f :: rest => do
      let (params, n) ← resolveAttrList types enums f.parameters
      let (rest', m) ← resolveFuncList types enums rest
      pure ({ f with parameters := params } :: rest', n + m)

/-- `resolveTypes` (inspector.ts:149-190): walk composite-type attributes,
then table columns, then routine parameters, resolving each in place and
returning the total count (`resolved`). The `types.find`/`enums.find`
lookups read only the `name`/`tsName` fields, which the pass never writes,
so the mutating source loops are equivalent to this pure pass using the
original `types` and `enums` collections for every lookup. Routine return
types are not visited. -/
def resolveTypes (s : SchemaData) : Except String (SchemaData × Nat) := do
  let (types', a) ← resolveTypeList s.types s.enums s.types
  let (tables', b) ← resolveTableList s.types s.enums s.tables
  let (functions', c) ← resolveFuncList s.types s.enums s.functions
  pure ({ s with types := types', tables := tables', functions := functions' },
        a + b + c)

/-! ## Predicates used by the claims -/

/-- No `UNRESOLVED_UDT` marker anywhere inside a `TsType` value. -/
def tsTypeClean : TsType → Bool
  | .unresolvedUdt _ => false
  | .array inner => tsTypeClean inner
  | _ => true

/-- A `TsType` value with no array directly inside an array. Since `array`
is the only recursive constructor, this bounds array nesting at depth 1. -/
def depthOk : TsType → Bool
  | .array (.array _) => false
  | _ => true

/-- All attribute locations the resolution pass visits — composite-type
attributes, table columns, routine parameters — satisfy `p`. -/
def schemaAttrsAll (p : TsType → Bool) (s : SchemaData) : Bool :=
  s.types.all (fun t => t.attributes.all (fun a => p a.tsType))
    && s.tables.all (fun t => t.columns.all (fun a => p a.tsType))
    && s.functions.all (fun f => f.parameters.all (fun a => p a.tsType))

/-- No marker anywhere in the visited attribute locations. -/
def schemaClean (s : SchemaData) : Bool := schemaAttrsAll tsTypeClean s

/-- Every visited attribute has array nesting of depth at most 1. -/
def schemaDepthOk (s : SchemaData) : Bool := schemaAttrsAll depthOk s

/-- No `UNRESOLVED_UDT` marker anywhere in the schema at all: the visited
attribute locations and also the routine return types. -/
def schemaFullyClean (s : SchemaData) : Bool :=
  schemaClean s && s.functions.all (fun f => tsTypeClean f.returnType)

/-- The attribute fields other than `tsType`: name, ordinal position,
nullability flag. -/
def attrShape (a : AttributeData) : String × Int × Bool :=
  (a.name, a.order, a.nullable)

/-- Everything about a composite type except its attributes' `tsType`s. -/
def typeShape (t : TypeData) : String × String × List (String × Int × Bool) :=
  (t.name, t.tsName, t.attributes.map attrShape)

/-- Everything about a table except its columns' `tsType`s. -/
def tableShape (t : TableData) : String × String × List (String × Int × Bool) :=
  (t.name, t.tsName, t.columns.map attrShape)

/-- Everything about a routine except its parameters' `tsType`s (the return
type is included: the pass never touches it). -/
def funcShape (f : FuncData) : String × TsType × List (String × Int × Bool) :=
  (f.name, f.returnType, f.parameters.map attrShape)

/-- The column names fed to `format.name` by `SqlGenerator.select`: the
selected columns, the condition columns, and the order-by columns. -/
def condColumn : Condition → String
  | .unary c _ => c
  | .binary c _ _ => c

/-- All identifier strings `SqlGenerator.select` passes to `format.name`. -/
def queryColumns (q : SelectQuery) : List String :=
  q.selected.getD [] ++ (q.conditions.getD []).map condColumn
    ++ (match q.orderBy with | some ob => ob.columns | none => [])

/-- All value strings `SqlGenerator.select` passes to `format.value`: the
values of the binary conditions. -/
def queryValues (q : SelectQuery) : List String :=
  (q.conditions.getD []).filterMap (fun c => match c with
    | .binary _ _ v => some v
    | .unary _ _ => none)

/-! ## Concrete instances used by the evaluations and witnesses -/

/-- A pg-promise-style formatting instance for concrete evaluations:
double-quoted identifiers, single-quoted values, decimal numbers. -/
def fmtPg : IFormatting :=
  { name := fun s => "\"" ++ s ++ "\"",
    value := fun s => "'" ++ s ++ "'",
    number := fun n => toString n }

/-- A formatting instance that deliberately disagrees with `fmtPg` on the
identifier `users`, used to show the table name never reaches the
identifier-quoting function. -/
def fmtRawUsers : IFormatting :=
  { name := fun s => if s = "users" then "RAW" else "\"" ++ s ++ "\"",
    value := fun s => "'" ++ s ++ "'",
    number := fun n => toString n }

/-- A transport whose operations report which one was invoked. -/
def tagTransport : ApiTransport String :=
  { select := fun _ => "select", insert := fun _ => "insert",
    update := fun _ => "update", delete := fun _ => "delete",
    call := fun _ => "call" }

/-- The spec's example builder chain on table `users`:
`select(["id"]).where("status","=","active").limit(10)`. -/
def qC1 : SelectQuery :=
  ((selectBuilderInit "users" (some ["id"])).whereClause "status" "="
    (some "active")).setLimit 10

/-- A bare `select("*")` query on table `users`. -/
def qUsersOnly : SelectQuery := { table := "users" }

/-- A query exercising every formatter call site of the renderer. -/
def qAllParts : SelectQuery :=
  { table := "users", selected := some ["id"],
    conditions := some [.binary "status" "=" "active"],
    limit := some 3,
    orderBy := some { columns := ["id"], direction := "asc" } }

/-- The query produced by `orderBy(["id"], "desc")` on a fresh `users`
builder. -/
def qOrdered : SelectQuery :=
  { table := "users", orderBy := some { columns := ["id"], direction := "desc" } }

/-- Empty allow-lists. -/
def udtsEmpty : UdtOptions := { string := [], number := [] }

/-- A catalog enum named `x`. -/
def enumX : EnumData :=
  { name := "x", tsName := "X", fields := [{ name := "a", order := 1 }] }

/-- A composite type named `person` with no attributes. -/
def tyPerson : TypeData := { name := "person", tsName := "Person", attributes := [] }

/-- A schema whose only column hides an `UNRESOLVED_UDT` marker two `array`
levels deep. -/
def nestedGhostSchema : SchemaData :=
  { enums := [], types := [],
    tables := [{ name := "t", tsName := "T",
                 columns := [{ name := "c", order := 1, nullable := false,
                               tsType := .array (.array (.unresolvedUdt (some "ghost"))) }] }],
    functions := [] }

/-- A schema with one unresolved reference to the enum `x` in a table
column. -/
def schemaW2 : SchemaData :=
  { enums := [enumX], types := [],
    tables := [{ name := "points", tsName := "Points",
                 columns := [{ name := "p", order := 1, nullable := false,
                               tsType := .unresolvedUdt (some "x") }] }],
    functions := [] }

/-- `schemaW2` after resolution: the marker replaced by the enum
reference. -/
def schemaW2R : SchemaData :=
  { enums := [enumX], types := [],
    tables := [{ name := "points", tsName := "Points",
                 columns := [{ name := "p", order := 1, nullable := false,
                               tsType := .enum "X" }] }],
    functions := [] }

/-- A fully resolved schema exercising all four collections. -/
def schemaW7 : SchemaData :=
  { enums := [enumX], types := [tyPerson],
    tables := [{ name := "t", tsName := "T",
                 columns := [{ name := "c", order := 1, nullable := true,
                               tsType := .array (.enum "X") }] }],
    functions := [{ name := "f", returnType := .boolean,
                    parameters := [{ name := "p", order := 1, nullable := false,
                                     tsType := .string }] }] }

/-! ## General helper lemmas -/

/-- Destructuring a successful `Except` bind. -/
theorem exceptBindOk {ε α β : Type} {x : Except ε α} {f : α → Except ε β} {b : β}
    (h : (x >>= f) = .ok b) : ∃ a, x = .ok a ∧ f a = .ok b := by
  cases x with
  | error e => exact absurd h (by simp [Bind.bind, Except.bind])
  | ok a => exact ⟨a, rfl, h⟩

/-- Pointwise-equal functions map lists equally. -/
theorem mapCongr {α β : Type} {l : List α} {f g : α → β}
    (h : ∀ a ∈ l, f a = g a) : l.map f = l.map g := by
  induction l with
  | nil => rfl
  | cons x xs ih =>
    simp only [List.map_cons]
    rw [h x (List.mem_cons_self x xs), ih (fun a ha => h a (List.mem_cons_of_mem x ha))]

/-- A list leads with itself. -/
theorem leadsWith_append (n post : List Char) : leadsWith n (n ++ post) = true := by
  induction n with
  | nil => rfl
  | cons c cs ih => simp [leadsWith, ih]

/-- A chunk is found at the front. -/
theorem hasChunk_self_append (n post : List Char) :
    hasChunk n (n ++ post) = true := by
  cases n with
  | nil =>
    cases post with
    | nil => rfl
    | cons c cs => rfl
  | cons c cs =>
    show (leadsWith (c :: cs) (c :: (cs ++ post)) || hasChunk (c :: cs) (cs ++ post)) = true
    have hc : c :: (cs ++ post) = (c :: cs) ++ post := rfl
    rw [hc, leadsWith_append]
    rfl

/-- A chunk is found after any leading material. -/
theorem hasChunk_append_self (n pre post : List Char) :
    hasChunk n (pre ++ (n ++ post)) = true := by
  induction pre with
  | nil => rw [List.nil_append]; exact hasChunk_self_append n post
  | cons p pre' ih =>
    rw [List.cons_append]
    show (leadsWith n (p :: (pre' ++ (n ++ post))) || hasChunk n (pre' ++ (n ++ post))) = true
    rw [ih]
    simp

/-- A string embedded between two others is a substring of the whole. -/
theorem strHas_mid (a n b : String) : strHas (a ++ (n ++ b)) n = true := by
  unfold strHas
  rw [String.data_append, String.data_append]
  exact hasChunk_append_self n.data a.data b.data

/-! ## Resolution-engine lemmas -/

/-- The source's recursive call `deduceType(udt, null, udts)` computes
`deduceSimple`: with a null `udt` every `udt`-side test is false and the
`ARRAY` branch cannot fire. -/
theorem deduceType_none_eq (ty : String) (udts : UdtOptions) :
    deduceType ty none udts = deduceSimple ty udts := by
  unfold deduceType deduceSimple
  simp [isNumberType, isStringType, isKnownDateType, listHasOpt]

/-- `deduceSimple` returns only leaf types. -/
theorem deduceSimple_cases {ty : String} {udts : UdtOptions} {t : TsType}
    (h : deduceSimple ty udts = some t) :
    t = .boolean ∨ t = .number ∨ t = .string ∨ t = .date ∨ t = .unresolvedUdt none := by
  unfold deduceSimple at h
  split_ifs at h <;> cases h <;> simp

/-- `deduceSimple` never returns an array. -/
theorem deduceSimple_not_array {ty : String} {udts : UdtOptions} {t : TsType}
    (h : deduceSimple ty udts = some t) : ∀ x, t ≠ .array x := by
  rcases deduceSimple_cases h with h | h | h | h | h <;> subst h <;> intro x hx <;> cases hx

/-- Phase-1 deduction can never produce an array directly inside an array:
the `ARRAY` branch's recursive call carries no array marker. -/
theorem deduceType_depthOk {ty : String} {udt : Option String} {udts : UdtOptions}
    {t : TsType} (h : deduceType ty udt udts = some t) : depthOk t = true := by
  unfold deduceType at h
  split_ifs at h
  case _ => cases h; rfl
  case _ => cases h; rfl
  case _ => cases h; rfl
  case _ => cases h; rfl
  case _ => cases h; rfl
  case _ =>
    cases udt with
    | none => cases h
    | some u =>
      cases h
      cases hds : deduceSimple u udts with
      | none => simp [hds, depthOk]
      | some t0 =>
        have hna := deduceSimple_not_array hds
        simp only [hds, Option.getD_some]
        cases t0 with
        | array x => exact absurd rfl (hna x)
        | _ => rfl

/-- A successful marker lookup yields a clean leaf reference. -/
theorem resolveUdt_ok_cases {types : List TypeData} {enums : List EnumData}
    {n : Option String} {t : TsType} (h : resolveUdt types enums n = .ok t) :
    tsTypeClean t = true ∧ depthOk t = true ∧ (∀ x, t ≠ .array x) := by
  unfold resolveUdt at h
  cases hf : findTypeByName types n with
  | some ty => rw [hf] at h; cases h; exact ⟨rfl, rfl, by intro x hx; cases hx⟩
  | none =>
    rw [hf] at h
    cases he : findEnumByName enums n with
    | some e => rw [he] at h; cases h; exact ⟨rfl, rfl, by intro x hx; cases hx⟩
    | none => rw [he] at h; cases h

/-- A clean value is a fixpoint of `resolveType`, counted 0. -/
theorem resolveTsType_of_clean {types : List TypeData} {enums : List EnumData}
    {t : TsType} (h : tsTypeClean t = true) :
    resolveTsType types enums t = .ok (t, 0) := by
  cases t with
  | array inner =>
    cases inner with
    | unresolvedUdt n => simp [tsTypeClean] at h
    | _ => rfl
  | unresolvedUdt n => simp [tsTypeClean] at h
  | _ => rfl

/-- On inputs with array depth at most 1, a successful `resolveType` leaves
no marker behind. -/
theorem resolveTsType_clean_of_depthOk {types : List TypeData} {enums : List EnumData}
    {t t' : TsType} {n : Nat} (hd : depthOk t = true)
    (h : resolveTsType types enums t = .ok (t', n)) : tsTypeClean t' = true := by
  cases t with
  | array inner =>
    cases inner with
    | unresolvedUdt m =>
      obtain ⟨i, hi, hrest⟩ := exceptBindOk h
      cases hrest
      exact (resolveUdt_ok_cases hi).1
    | array x => simp [depthOk] at hd
    | boolean => cases h; rfl
    | number => cases h; rfl
    | string => cases h; rfl
    | date => cases h; rfl
    | enum s => cases h; rfl
    | interface s => cases h; rfl
  | unresolvedUdt m =>
    obtain ⟨i, hi, hrest⟩ := exceptBindOk h
    cases hrest
    exact (resolveUdt_ok_cases hi).1
  | boolean => cases h; rfl
  | number => cases h; rfl
  | string => cases h; rfl
  | date => cases h; rfl
  | enum s => cases h; rfl
  | interface s => cases h; rfl

/-- `resolveType` preserves the depth bound. -/
theorem resolveTsType_depthOk {types : List TypeData} {enums : List EnumData}
    {t t' : TsType} {n : Nat} (hd : depthOk t = true)
    (h : resolveTsType types enums t = .ok (t', n)) : depthOk t' = true := by
  cases t with
  | array inner =>
    cases inner with
    | unresolvedUdt m =>
      obtain ⟨i, hi, hrest⟩ := exceptBindOk h
      cases hrest
      obtain ⟨-, -, hna⟩ := resolveUdt_ok_cases hi
      cases i with
      | array x => exact absurd rfl (hna x)
      | _ => rfl
    | array x => simp [depthOk] at hd
    | _ => cases h; exact hd
  | unresolvedUdt m =>
    obtain ⟨i, hi, hrest⟩ := exceptBindOk h
    cases hrest
    exact (resolveUdt_ok_cases hi).2.1
  | _ => cases h; exact hd

/-- `resolveType` on an attribute only reassigns its `tsType`. -/
theorem resolveAttribute_ok {types : List TypeData} {enums : List EnumData}
    {a a' : AttributeData} {n : Nat}
    (h : resolveAttribute types enums a = .ok (a', n)) :
    ∃ t, resolveTsType types enums a.tsType = .ok (t, n) ∧ a' = { a with tsType := t } := by
  unfold resolveAttribute at h
  obtain ⟨⟨t, k⟩, ht, hrest⟩ := exceptBindOk h
  cases hrest
  exact ⟨t, ht, rfl⟩

/-- The attribute loop preserves every field except `tsType`, and each
output `tsType` is a successful `resolveType` of some input `tsType`. -/
theorem resolveAttrList_ok {types : List TypeData} {enums : List EnumData} :
    ∀ {attrs attrs' : List AttributeData} {n : Nat},
    resolveAttrList types enums attrs = .ok (attrs', n) →
    attrs'.map attrShape = attrs.map attrShape ∧
    (∀ a' ∈ attrs', ∃ a ∈ attrs, ∃ k, resolveTsType types enums a.tsType = .ok (a'.tsType, k))
  | [], attrs', n, h => by
      cases h
      exact ⟨rfl, by intro a' ha'; cases ha'⟩
  | a :: rest, attrs', n, h => by
      unfold resolveAttrList at h
      obtain ⟨⟨a2, k⟩, ha, h2⟩ := exceptBindOk h
      obtain ⟨⟨rest2, m⟩, hr, h3⟩ := exceptBindOk h2
      cases h3
      obtain ⟨t, ht, ha2⟩ := resolveAttribute_ok ha
      obtain ⟨ih1, ih2⟩ := resolveAttrList_ok hr
      subst ha2
      refine ⟨by simp [attrShape, ih1], ?_⟩
      intro a' ha'
      rcases List.mem_cons.mp ha' with h | h
      · subst h; exact ⟨a, List.mem_cons_self a rest, k, ht⟩
      · obtain ⟨a0, ha0, k0, hk0⟩ := ih2 a' h
        exact ⟨a0, List.mem_cons_of_mem _ ha0, k0, hk0⟩

/-- A clean attribute list is a fixpoint of the attribute loop. -/
theorem resolveAttrList_of_clean {types : List TypeData} {enums : List EnumData} :
    ∀ {attrs : List AttributeData},
    attrs.all (fun a => tsTypeClean a.tsType) = true →
    resolveAttrList types enums attrs = .ok (attrs, 0)
  | [], _ => rfl
  | a :: rest, h => by
      rw [List.all_cons, Bool.and_eq_true] at h
      show (resolveAttribute types enums a >>= fun p => _) = _
      have ha : resolveAttribute types enums a = .ok (a, 0) := by
        unfold resolveAttribute
        rw [resolveTsType_of_clean h.1]
        rfl
      rw [ha]
      show (resolveAttrList types enums rest >>= fun p => _) = _
      rw [resolveAttrList_of_clean h.2]
      rfl

/-- The composite-type loop preserves shapes and tracks attribute
resolution. -/
theorem resolveTypeList_ok {types : List TypeData} {enums : List EnumData} :
    ∀ {l l' : List TypeData} {n : Nat},
    resolveTypeList types enums l = .ok (l', n) →
    l'.map typeShape = l.map typeShape ∧
    (∀ t' ∈ l', ∃ t ∈ l, ∃ k, resolveAttrList types enums t.attributes = .ok (t'.attributes, k))
  | [], l', n, h => by
      cases h
      exact ⟨rfl, by intro t' ht'; cases ht'⟩
  | t :: rest, l', n, h => by
      unfold resolveTypeList at h
      obtain ⟨⟨attrs, k⟩, ha, h2⟩ := exceptBindOk h
      obtain ⟨⟨rest2, m⟩, hr, h3⟩ := exceptBindOk h2
      cases h3
      obtain ⟨ih1, ih2⟩ := resolveTypeList_ok hr
      constructor
      · simp only [List.map_cons, ih1]
        congr 1
        simp [typeShape, (resolveAttrList_ok ha).1]
      · intro t' ht'
        rcases List.mem_cons.mp ht' with hh | hh
        · subst hh; exact ⟨t, List.mem_cons_self t rest, k, ha⟩
        · obtain ⟨t0, ht0, k0, hk0⟩ := ih2 t' hh
          exact ⟨t0, List.mem_cons_of_mem _ ht0, k0, hk0⟩

/-- The table loop preserves shapes and tracks column resolution. -/
theorem resolveTableList_ok {types : List TypeData} {enums : List EnumData} :
    ∀ {l l' : List TableData} {n : Nat},
    resolveTableList types enums l = .ok (l', n) →
    l'.map tableShape = l.map tableShape ∧
    (∀ t' ∈ l', ∃ t ∈ l, ∃ k, resolveAttrList types enums t.columns = .ok (t'.columns, k))
  | [], l', n, h => by
      cases h
      exact ⟨rfl, by intro t' ht'; cases ht'⟩
  | t :: rest, l', n, h => by
      unfold resolveTableList at h
      obtain ⟨⟨cols, k⟩, ha, h2⟩ := exceptBindOk h
      obtain ⟨⟨rest2, m⟩, hr, h3⟩ := exceptBindOk h2
      cases h3
      obtain ⟨ih1, ih2⟩ := resolveTableList_ok hr
      constructor
      · simp only [List.map_cons, ih1]
        congr 1
        simp [tableShape, (resolveAttrList_ok ha).1]
      · intro t' ht'
        rcases List.mem_cons.mp ht' with hh | hh
        · subst hh; exact ⟨t, List.mem_cons_self t rest, k, ha⟩
        · obtain ⟨t0, ht0, k0, hk0⟩ := ih2 t' hh
          exact ⟨t0, List.mem_cons_of_mem _ ht0, k0, hk0⟩

/-- The routine loop preserves shapes (return type included) and tracks
parameter resolution. -/
theorem resolveFuncList_ok {types : List TypeData} {enums : List EnumData} :
    ∀ {l l' : List FuncData} {n : Nat},
    resolveFuncList types enums l = .ok (l', n) →
    l'.map funcShape = l.map funcShape ∧
    (∀ f' ∈ l', ∃ f ∈ l, ∃ k, resolveAttrList types enums f.parameters = .ok (f'.parameters, k))
  | [], l', n, h => by
      cases h
      exact ⟨rfl, by intro f' hf'; cases hf'⟩
  | f :: rest, l', n, h => by
      unfold resolveFuncList at h
      obtain ⟨⟨params, k⟩, ha, h2⟩ := exceptBindOk h
      obtain ⟨⟨rest2, m⟩, hr, h3⟩ := exceptBindOk h2
      cases h3
      obtain ⟨ih1, ih2⟩ := resolveFuncList_ok hr
      constructor
      · simp only [List.map_cons, ih1]
        congr 1
        simp [funcShape, (resolveAttrList_ok ha).1]
      · intro f' hf'
        rcases List.mem_cons.mp hf' with hh | hh
        · subst hh; exact ⟨f, List.mem_cons_self f rest, k, ha⟩
        · obtain ⟨f0, hf0, k0, hk0⟩ := ih2 f' hh
          exact ⟨f0, List.mem_cons_of_mem _ hf0, k0, hk0⟩

/-- A clean composite-type list is a fixpoint of its loop. -/
theorem resolveTypeList_of_clean {types : List TypeData} {enums : List EnumData} :
    ∀ {l : List TypeData},
    l.all (fun t => t.attributes.all (fun a => tsTypeClean a.tsType)) = true →
    resolveTypeList types enums l = .ok (l, 0)
  | [], _ => rfl
  | t :: rest, h => by
      rw [List.all_cons, Bool.and_eq_true] at h
      show (resolveAttrList types enums t.attributes >>= fun p => _) = _
      rw [resolveAttrList_of_clean h.1]
      show (resolveTypeList types enums rest >>= fun p => _) = _
      rw [resolveTypeList_of_clean h.2]
      rfl

/-- A clean table list is a fixpoint of its loop. -/
theorem resolveTableList_of_clean {types : List TypeData} {enums : List EnumData} :
    ∀ {l : List TableData},
    l.all (fun t => t.columns.all (fun a => tsTypeClean a.tsType)) = true →
    resolveTableList types enums l = .ok (l, 0)
  | [], _ => rfl
  | t :: rest, h => by
      rw [List.all_cons, Bool.and_eq_true] at h
      show (resolveAttrList types enums t.columns >>= fun p => _) = _
      rw [resolveAttrList_of_clean h.1]
      show (resolveTableList types enums rest >>= fun p => _) = _
      rw [resolveTableList_of_clean h.2]
      rfl

/-- A clean routine list is a fixpoint of its loop. -/
theorem resolveFuncList_of_clean {types : List TypeData} {enums : List EnumData} :
    ∀ {l : List FuncData},
    l.all (fun f => f.parameters.all (fun a => tsTypeClean a.tsType)) = true →
    resolveFuncList types enums l = .ok (l, 0)
  | [], _ => rfl
  | f :: rest, h => by
      rw [List.all_cons, Bool.and_eq_true] at h
      show (resolveAttrList types enums f.parameters >>= fun p => _) = _
      rw [resolveAttrList_of_clean h.1]
      show (resolveFuncList types enums rest >>= fun p => _) = _
      rw [resolveFuncList_of_clean h.2]
      rfl

/-! ## Claim theorems -/

/-- Claim C1. The spec's example chain
`select(["id"]).where("status","=","active").limit(10)` on `users`
accumulates the expected query and renders the expected `limit 10` clause,
quoted column and formatted value with no `offset`/`order by` clause — but
the rendered text never contains the keyword `where`: the source
interpolates the boolean flag itself (`${where}` at sql.ts:26), producing
`true <conditions>` when conditions are present and `undefined` when they
are absent, instead of a `where` clause or its clean omission. -/
theorem select_where_flag_bug :
    qC1 = { table := "users", selected := some ["id"],
            conditions := some [.binary "status" "=" "active"], limit := some 10 } ∧
    selectText fmtPg qC1
      = "\n      select \"id\"\n      from users\n      true \"status\" ='active'\n      limit 10\n      \n      \n    " ∧
    strHas (selectText fmtPg qC1) "where" = false ∧
    strHas (selectText fmtPg qC1) "true \"status\" ='active'" = true ∧
    strHas (selectText fmtPg qC1) "limit 10" = true ∧
    strHas (selectText fmtPg qC1) "offset" = false ∧
    strHas (selectText fmtPg qC1) "order by" = false ∧
    selectText fmtPg { table := "users", selected := some ["id"] }
      = "\n      select \"id\"\n      from users\n      undefined \n      \n      \n      \n    " :=
  ⟨rfl, rfl, by decide, by decide, by decide, by decide, by decide, rfl⟩

/-- Claim C2 (counterexample). A schema hiding an `UNRESOLVED_UDT` marker
two `array` levels deep: `resolveTypes` returns normally with count 0, yet
the marker survives — the array branch of `resolveType` only inspects one
level (`tsType[1][0] === UNRESOLVED_UDT`), so `Array(Array(UnresolvedUdt))`
matches neither guard and is returned unchanged. -/
theorem resolveTypes_nested_marker_survives :
    resolveTypes nestedGhostSchema = .ok (nestedGhostSchema, 0) ∧
    schemaClean nestedGhostSchema = false :=
  ⟨rfl, rfl⟩

/-- Claim C2 (amended). For schemas whose attribute types nest arrays at
most one level deep — the only shapes Phase-1 deduction can produce — a
normal return of `resolveTypes` leaves no `UNRESOLVED_UDT` marker in any
composite-type attribute, table column, or routine parameter. -/
theorem resolveTypes_clean_after_success (s s' : SchemaData) (n : Nat)
    (hd : schemaDepthOk s = true) (h : resolveTypes s = .ok (s', n)) :
    schemaClean s' = true := by
  unfold schemaDepthOk schemaAttrsAll at hd
  rw [Bool.and_eq_true, Bool.and_eq_true] at hd
  obtain ⟨⟨hd1, hd2⟩, hd3⟩ := hd
  rw [List.all_eq_true] at hd1 hd2 hd3
  unfold resolveTypes at h
  obtain ⟨⟨types', a⟩, h1, h2⟩ := exceptBindOk h
  obtain ⟨⟨tables', b⟩, h3, h4⟩ := exceptBindOk h2
  obtain ⟨⟨functions', c⟩, h5, h6⟩ := exceptBindOk h4
  cases h6
  unfold schemaClean schemaAttrsAll
  rw [Bool.and_eq_true, Bool.and_eq_true]
  refine ⟨⟨?_, ?_⟩, ?_⟩
  · rw [List.all_eq_true]
    intro t' ht'
    obtain ⟨t, ht, k, hk⟩ := (resolveTypeList_ok h1).2 t' ht'
    rw [List.all_eq_true]
    intro a' ha'
    obtain ⟨a0, ha0, k0, hk0⟩ := (resolveAttrList_ok hk).2 a' ha'
    have hdok : depthOk a0.tsType = true := by
      have hall := hd1 t ht
      rw [List.all_eq_true] at hall
      exact hall a0 ha0
    exact resolveTsType_clean_of_depthOk hdok hk0
  · rw [List.all_eq_true]
    intro t' ht'
    obtain ⟨t, ht, k, hk⟩ := (resolveTableList_ok h3).2 t' ht'
    rw [List.all_eq_true]
    intro a' ha'
    obtain ⟨a0, ha0, k0, hk0⟩ := (resolveAttrList_ok hk).2 a' ha'
    have hdok : depthOk a0.tsType = true := by
      have hall := hd2 t ht
      rw [List.all_eq_true] at hall
      exact hall a0 ha0
    exact resolveTsType_clean_of_depthOk hdok hk0
  · rw [List.all_eq_true]
    intro f' hf'
    obtain ⟨f, hf, k, hk⟩ := (resolveFuncList_ok h5).2 f' hf'
    rw [List.all_eq_true]
    intro a' ha'
    obtain ⟨a0, ha0, k0, hk0⟩ := (resolveAttrList_ok hk).2 a' ha'
    have hdok : depthOk a0.tsType = true := by
      have hall := hd3 f hf
      rw [List.all_eq_true] at hall
      exact hall a0 ha0
    exact resolveTsType_clean_of_depthOk hdok hk0

/-- Claim C2 (witness). The marker `UnresolvedUdt "x"` in `schemaW2`
resolves to `EnumRef X` and the resulting schema is clean. -/
theorem resolveTypes_clean_after_success_witness :
    schemaDepthOk schemaW2 = true ∧
    resolveTypes schemaW2 = .ok (schemaW2R, 1) ∧
    schemaClean schemaW2R = true :=
  ⟨rfl, rfl, resolveTypes_clean_after_success schemaW2 schemaW2R 1 rfl rfl⟩

/-- Claim C3 (counterexample). The raw catalog facts for an
`x[][]` column — `data_type "ARRAY"` with element name `x` (Postgres uses a
single array type for every nesting depth, and the inspector strips the
`_` element prefix) — deduce to `Array(UnresolvedUdt x)` and resolve to
`Array(EnumRef X)`: a single wrap, not the claimed
`Array(Array(EnumRef X))`. -/
theorem array_of_array_enum_single_wrap :
    deduceType "ARRAY" (some "x") udtsEmpty
      = some (.array (.unresolvedUdt (some "x"))) ∧
    resolveTsType [] [enumX] (.array (.unresolvedUdt (some "x")))
      = .ok (.array (.enum "X"), 1) ∧
    TsType.array (.enum "X") ≠ .array (.array (.enum "X")) :=
  ⟨rfl, rfl, by decide⟩

/-- Claim C3 (amended). Phase-1 deduction followed by Phase-2 resolution
can never yield a nested array — in particular never
`Array(Array(EnumRef X))`: the deduction's recursive call
(`deduceType(udt, null, udts)`) passes no array marker, so the element of
an `Array` is always a leaf, and resolution replaces it by a leaf
reference. -/
theorem deduce_resolve_no_nested_array (ty : String) (udt : Option String)
    (udts : UdtOptions) (types : List TypeData) (enums : List EnumData)
    (t t' : TsType) (n : Nat)
    (h1 : deduceType ty udt udts = some t)
    (h2 : resolveTsType types enums t = .ok (t', n)) :
    depthOk t' = true :=
  resolveTsType_depthOk (deduceType_depthOk h1) h2

/-- Claim C3 (witness). An array of the composite `person` deduces and
resolves to a single-wrapped `Array(CompositeRef Person)`. -/
theorem deduce_resolve_no_nested_array_witness :
    deduceType "ARRAY" (some "person") udtsEmpty
      = some (.array (.unresolvedUdt (some "person"))) ∧
    resolveTsType [tyPerson] [] (.array (.unresolvedUdt (some "person")))
      = .ok (.array (.interface "Person"), 1) ∧
    depthOk (.array (.interface "Person")) = true :=
  ⟨rfl, rfl,
   deduce_resolve_no_nested_array "ARRAY" (some "person") udtsEmpty [tyPerson] []
     (.array (.unresolvedUdt (some "person"))) (.array (.interface "Person")) 1 rfl rfl⟩

/-- Claim C4. `DeleteBuilder.execute` hands its accumulated `DeleteCommand`
to the transport's `update` operation, not its `delete` operation: the
source (dbTransport.ts:263) reads `this.transport.update(this.command)`. -/
theorem delete_execute_calls_update :
    deleteExecute tagTransport (deleteBuilderInit "users")
      = tagTransport.update { table := "users" } ∧
    deleteExecute tagTransport (deleteBuilderInit "users")
      ≠ tagTransport.delete { table := "users" } :=
  ⟨rfl, by decide⟩

/-- Claim C5 (counterexample). Rendering `select * from users` with a
quoting function that double-quotes every identifier: the output contains
the table name raw (`from users`) and nowhere contains the quoted token
`format.name "users"` — the table name is interpolated directly
(sql.ts:25), not produced by the identifier-quoting function. -/
theorem selectText_table_name_raw :
    selectText fmtPg qUsersOnly
      = "\n      select *\n      from users\n      undefined \n      \n      \n      \n    " ∧
    fmtPg.name "users" = "\"users\"" ∧
    strHas (selectText fmtPg qUsersOnly) "users" = true ∧
    strHas (selectText fmtPg qUsersOnly) "\"users\"" = false :=
  ⟨rfl, rfl, by decide, by decide⟩

/-- Claim C5 (amended). The rendered text consults `format.name` only at
the selected, condition and order-by columns, `format.value` only at the
binary-condition values, and `format.number` only at limit/offset: two
formatter pairs agreeing there render identical text, whatever they do
elsewhere — in particular the table name never passes through the
identifier-quoting function and is interpolated raw. -/
theorem selectText_formatter_provenance (fmt1 fmt2 : IFormatting) (q : SelectQuery)
    (hname : ∀ c ∈ queryColumns q, fmt1.name c = fmt2.name c)
    (hvalue : ∀ v ∈ queryValues q, fmt1.value v = fmt2.value v)
    (hnumber : ∀ n : Int, fmt1.number n = fmt2.number n) :
    selectText fmt1 q = selectText fmt2 q := by
  have hsel : ∀ c ∈ q.selected.getD [], fmt1.name c = fmt2.name c := fun c hc =>
    hname c (List.mem_append_left _ (List.mem_append_left _ hc))
  have hcond : ∀ c ∈ (q.conditions.getD []).map condColumn, fmt1.name c = fmt2.name c :=
    fun c hc => hname c (List.mem_append_left _ (List.mem_append_right _ hc))
  have hord : ∀ c ∈ (match q.orderBy with | some ob => ob.columns | none => ([] : List String)),
      fmt1.name c = fmt2.name c :=
    fun c hc => hname c (List.mem_append_right _ hc)
  have e1 : selectedText fmt1 q.selected = selectedText fmt2 q.selected := by
    cases hq : q.selected with
    | none => rfl
    | some cols =>
      rw [hq] at hsel
      exact congrArg (joinSep ",") (mapCongr (by simpa using hsel))
  have e2 : conditionsText fmt1 q.conditions = conditionsText fmt2 q.conditions := by
    cases hq : q.conditions with
    | none => rfl
    | some cs =>
      rw [hq] at hcond
      refine congrArg (joinSep " and ") (mapCongr ?_)
      intro c hc
      cases c with
      | unary col op =>
        show fmt1.name col ++ " " ++ op = fmt2.name col ++ " " ++ op
        rw [hcond col (List.mem_map.mpr ⟨_, hc, rfl⟩)]
      | binary col op v =>
        have hv : v ∈ queryValues q := by
          unfold queryValues
          rw [hq]
          exact List.mem_filterMap.mpr ⟨_, hc, rfl⟩
        show fmt1.name col ++ " " ++ op ++ fmt1.value v
          = fmt2.name col ++ " " ++ op ++ fmt2.value v
        rw [hcond col (List.mem_map.mpr ⟨_, hc, rfl⟩), hvalue v hv]
  have e3 : limitText fmt1 q.limit = limitText fmt2 q.limit := by
    cases q.limit with
    | none => rfl
    | some n =>
      show (if n = 0 then "" else "limit " ++ fmt1.number n)
        = (if n = 0 then "" else "limit " ++ fmt2.number n)
      rw [hnumber n]
  have e4 : offsetText fmt1 q.offset = offsetText fmt2 q.offset := by
    cases q.offset with
    | none => rfl
    | some n =>
      show (if n = 0 then "" else "offset " ++ fmt1.number n)
        = (if n = 0 then "" else "offset " ++ fmt2.number n)
      rw [hnumber n]
  have e5 : orderByText fmt1 q.orderBy = orderByText fmt2 q.orderBy := by
    cases hq : q.orderBy with
    | none => rfl
    | some ob =>
      rw [hq] at hord
      show "order by " ++ joinSep ", " (ob.columns.map fmt1.name) ++ ob.direction
        = "order by " ++ joinSep ", " (ob.columns.map fmt2.name) ++ ob.direction
      rw [mapCongr hord]
  unfold selectText
  rw [e1, e2, e3, e4, e5]

/-- Claim C5 (witness). Two formatters that disagree on the identifier
`users` but agree on the query's columns and values render `qAllParts`
identically — the table name is outside the formatting pipeline. -/
theorem selectText_formatter_provenance_witness :
    fmtPg.name "users" ≠ fmtRawUsers.name "users" ∧
    selectText fmtPg qAllParts = selectText fmtRawUsers qAllParts :=
  ⟨by decide,
   selectText_formatter_provenance fmtPg fmtRawUsers qAllParts
     (by decide) (by decide) (fun _ => rfl)⟩

/-- Claim C6. Resolving an `UnresolvedUdt name` marker looks `name` up
first among the composite types (yielding a `CompositeRef`, whatever the
enums contain), then among the enums (yielding an `EnumRef`); when both
lookups miss, it throws the error `Can't resolve type "<name>".`, whose
message contains the missing name. -/
theorem resolveUdt_lookup_order (types : List TypeData) (enums : List EnumData)
    (name : String) :
    (∀ ty, findTypeByName types (some name) = some ty →
      resolveTsType types enums (.unresolvedUdt (some name))
        = .ok (.interface ty.tsName, 1)) ∧
    (findTypeByName types (some name) = none →
      ∀ e, findEnumByName enums (some name) = some e →
        resolveTsType types enums (.unresolvedUdt (some name))
          = .ok (.enum e.tsName, 1)) ∧
    (findTypeByName types (some name) = none →
      findEnumByName enums (some name) = none →
        resolveTsType types enums (.unresolvedUdt (some name))
          = .error ("Can't resolve type \"" ++ (name ++ "\".")) ∧
        strHas ("Can't resolve type \"" ++ (name ++ "\".")) name = true) := by
  refine ⟨?_, ?_, ?_⟩
  · intro ty hty
    show (resolveUdt types enums (some name) >>= fun t => pure (t, 1)) = _
    unfold resolveUdt
    rw [hty]
    rfl
  · intro hty e he
    show (resolveUdt types enums (some name) >>= fun t => pure (t, 1)) = _
    unfold resolveUdt
    rw [hty, he]
    rfl
  · intro hty he
    constructor
    · show (resolveUdt types enums (some name) >>= fun t => pure (t, 1)) = _
      unfold resolveUdt
      rw [hty, he]
      rfl
    · exact strHas_mid "Can't resolve type \"" name "\"."

/-- Claim C6 (witness). `person` is found among the composite types;
`ghost`, matching nothing, raises the error naming it. -/
theorem resolveUdt_lookup_order_witness :
    resolveTsType [tyPerson] [] (.unresolvedUdt (some "person"))
      = .ok (.interface "Person", 1) ∧
    resolveTsType [] [] (.unresolvedUdt (some "ghost"))
      = .error ("Can't resolve type \"" ++ ("ghost" ++ "\".")) ∧
    strHas ("Can't resolve type \"" ++ ("ghost" ++ "\".")) "ghost" = true :=
  ⟨(resolveUdt_lookup_order [tyPerson] [] "person").1 tyPerson rfl,
   ((resolveUdt_lookup_order [] [] "ghost").2.2 rfl rfl).1,
   ((resolveUdt_lookup_order [] [] "ghost").2.2 rfl rfl).2⟩

/-- Claim C7. Resolving a schema that contains no `UNRESOLVED_UDT` marker
anywhere returns the schema itself — every `ResolvedType` unchanged — with
a resolution count of zero. -/
theorem resolveTypes_idempotent_on_resolved (s : SchemaData)
    (h : schemaFullyClean s = true) : resolveTypes s = .ok (s, 0) := by
  have hc : schemaClean s = true := by
    unfold schemaFullyClean at h
    rw [Bool.and_eq_true] at h
    exact h.1
  unfold schemaClean schemaAttrsAll at hc
  rw [Bool.and_eq_true, Bool.and_eq_true] at hc
  obtain ⟨⟨h1, h2⟩, h3⟩ := hc
  unfold resolveTypes
  show (resolveTypeList s.types s.enums s.types >>= fun p => _) = _
  rw [resolveTypeList_of_clean h1]
  show (resolveTableList s.types s.enums s.tables >>= fun p => _) = _
  rw [resolveTableList_of_clean h2]
  show (resolveFuncList s.types s.enums s.functions >>= fun p => _) = _
  rw [resolveFuncList_of_clean h3]
  rfl

/-- Claim C7 (witness). The fully resolved `schemaW7` is returned untouched
with count 0. -/
theorem resolveTypes_idempotent_on_resolved_witness :
    schemaFullyClean schemaW7 = true ∧
    resolveTypes schemaW7 = .ok (schemaW7, 0) :=
  ⟨rfl, resolveTypes_idempotent_on_resolved schemaW7 rfl⟩

/-- Claim C8 (counterexample). An empty-string underlying name that appears
in the string allow-list is skipped by the truthiness guard
`udt && udts.string.includes(udt)`: with raw type `mystery` (matching
nothing) and underlying name `""` listed in the string allow-list, the
claim demands `String`, but deduction falls through every branch and fails
with `null`. -/
theorem deduceType_empty_udt_skips_allowlist :
    deduceType "mystery" (some "") { string := [""], number := [] } = none ∧
    (let udts : UdtOptions := { string := [""], number := [] }
     udts.string.contains "" = true) ∧
    none ≠ some TsType.string :=
  ⟨rfl, rfl, by decide⟩

/-- Claim C8 (amended). When neither the raw nor the underlying name is the
built-in boolean or a built-in numeric type name, neither appears in the
number allow-list, and the raw name appears in the string allow-list (or
the underlying name does and is non-empty — an empty underlying name is
skipped by a JavaScript truthiness guard), Phase-1 deduction returns
`String`, never `Number`. -/
theorem deduceType_string_allowlist_precedence (type : String) (udt : Option String)
    (udts : UdtOptions)
    (hb1 : type ≠ "boolean") (hb2 : udt ≠ some "boolean")
    (hn1 : type ∉ numberTypeNames) (hn2 : ∀ u, udt = some u → u ∉ numberTypeNames)
    (ha1 : type ∉ udts.number) (ha2 : ∀ u, udt = some u → u ∉ udts.number)
    (hs : type ∈ udts.string ∨ ∃ u, udt = some u ∧ u ≠ "" ∧ u ∈ udts.string) :
    deduceType type udt udts = some .string := by
  cases udt with
  | none =>
    have c1 : ¬((decide (type = "boolean")
        || decide ((none : Option String) = some "boolean")) = true) := by
      simp [hb1]
    have c2 : ¬((isNumberType (some type) || isNumberType none
        || udts.number.contains type || listHasOpt udts.number none) = true) := by
      simp [isNumberType, listHasOpt, hn1, ha1]
    have c3 : (isStringType (some type) || isStringType none
        || udts.string.contains type || listHasOpt udts.string none) = true := by
      rcases hs with hs | ⟨u, hu, -⟩
      · simp [hs]
      · cases hu
    unfold deduceType
    rw [if_neg c1, if_neg c2, if_pos c3]
  | some u =>
    have hn2u := hn2 u rfl
    have ha2u := ha2 u rfl
    have c1 : ¬((decide (type = "boolean") || decide (some u = some "boolean")) = true) := by
      simp [hb1]
      intro hx
      exact absurd (by rw [hx]) hb2
    have c2 : ¬((isNumberType (some type) || isNumberType (some u)
        || udts.number.contains type || listHasOpt udts.number (some u)) = true) := by
      simp [isNumberType, listHasOpt, hn1, hn2u, ha1, ha2u]
    have c3 : (isStringType (some type) || isStringType (some u)
        || udts.string.contains type || listHasOpt udts.string (some u)) = true := by
      rcases hs with hs | ⟨u2, hu2, hne, hmem⟩
      · simp [hs]
      · cases hu2
        simp [listHasOpt, hne, hmem]
    unfold deduceType
    rw [if_neg c1, if_neg c2, if_pos c3]

/-- Claim C8 (witness). A raw type `mytype` unknown to every built-in list,
with underlying name `myudt` listed only in the string allow-list, deduces
to `String`. -/
theorem deduceType_string_allowlist_precedence_witness :
    deduceType "mytype" (some "myudt") { string := ["myudt"], number := [] }
      = some .string :=
  deduceType_string_allowlist_precedence "mytype" (some "myudt")
    { string := ["myudt"], number := [] }
    (by decide) (by decide) (by decide)
    (by intro u h; cases h; decide)
    (by decide)
    (by intro u h; cases h; decide)
    (Or.inr ⟨"myudt", rfl, by decide, by decide⟩)

/-- Claim C9. A successful resolution pass changes only attribute
`tsType` values: the enums are untouched, and the composite types, tables
and routines keep their membership, order, names, return types, and every
attribute's name, ordinal position and nullability flag. -/
theorem resolveTypes_frame (s s' : SchemaData) (n : Nat)
    (h : resolveTypes s = .ok (s', n)) :
    s'.enums = s.enums ∧
    s'.types.map typeShape = s.types.map typeShape ∧
    s'.tables.map tableShape = s.tables.map tableShape ∧
    s'.functions.map funcShape = s.functions.map funcShape := by
  unfold resolveTypes at h
  obtain ⟨⟨types', a⟩, h1, h2⟩ := exceptBindOk h
  obtain ⟨⟨tables', b⟩, h3, h4⟩ := exceptBindOk h2
  obtain ⟨⟨functions', c⟩, h5, h6⟩ := exceptBindOk h4
  cases h6
  exact ⟨rfl, (resolveTypeList_ok h1).1, (resolveTableList_ok h3).1,
    (resolveFuncList_ok h5).1⟩

/-- Claim C9 (witness). Resolving `schemaW2` (one marker in one table
column) preserves every shape while rewriting only the marker. -/
theorem resolveTypes_frame_witness :
    resolveTypes schemaW2 = .ok (schemaW2R, 1) ∧
    schemaW2R.enums = schemaW2.enums ∧
    schemaW2R.types.map typeShape = schemaW2.types.map typeShape ∧
    schemaW2R.tables.map tableShape = schemaW2.tables.map tableShape ∧
    schemaW2R.functions.map funcShape = schemaW2.functions.map funcShape :=
  ⟨rfl,
   (resolveTypes_frame schemaW2 schemaW2R 1 rfl).1,
   (resolveTypes_frame schemaW2 schemaW2R 1 rfl).2.1,
   (resolveTypes_frame schemaW2 schemaW2R 1 rfl).2.2.1,
   (resolveTypes_frame schemaW2 schemaW2R 1 rfl).2.2.2⟩

/-- Claim C10. `orderBy` with the direction omitted (`undefined`) throws
the invalid-direction error at call time — the `direction || "asc"`
fallback is unreachable — and an ordering is only ever set with an
explicit `"asc"` or `"desc"`, stored verbatim. -/
theorem orderBy_requires_explicit_direction (q : SelectQuery) (cols : List String) :
    q.setOrderBy cols none = .error "Invalid orderBy direction: \"undefined\"." ∧
    ∀ d q', q.setOrderBy cols (some d) = .ok q' →
      (d = "asc" ∨ d = "desc") ∧
      q'.orderBy = some { columns := cols, direction := d } := by
  constructor
  · unfold SelectQuery.setOrderBy
    have hc : (none : Option String) ≠ some "asc" ∧ (none : Option String) ≠ some "desc" :=
      ⟨by simp, by simp⟩
    rw [if_pos hc]
    rfl
  · intro d q' h
    unfold SelectQuery.setOrderBy at h
    by_cases hd : (some d : Option String) ≠ some "asc" ∧ (some d : Option String) ≠ some "desc"
    · rw [if_pos hd] at h
      cases h
    · rw [if_neg hd] at h
      rw [not_and_or, not_not, not_not] at hd
      have hdd : d = "asc" ∨ d = "desc" := by
        rcases hd with hd | hd
        · exact Or.inl (Option.some.inj hd)
        · exact Or.inr (Option.some.inj hd)
      cases h
      refine ⟨hdd, ?_⟩
      have hne : d ≠ "" := by
        rcases hdd with hd2 | hd2 <;> subst hd2 <;> decide
      simp [hne]

/-- Claim C10 (witness). On a fresh `users` builder, `orderBy(["id"])` with
no direction errors, and `orderBy(["id"], "desc")` stores the ordering with
direction `desc`. -/
theorem orderBy_requires_explicit_direction_witness :
    qUsersOnly.setOrderBy ["id"] none
      = .error "Invalid orderBy direction: \"undefined\"." ∧
    (("desc" = "asc" ∨ "desc" = "desc") ∧
      qOrdered.orderBy = some { columns := ["id"], direction := "desc" }) :=
  ⟨(orderBy_requires_explicit_direction qUsersOnly ["id"]).1,
   (orderBy_requires_explicit_direction qUsersOnly ["id"]).2 "desc" qOrdered rfl⟩

end Poststack
